import Mathlib

/-!
Verification development for the storefront page (`src/app/page.tsx`).

The page is a React component; its logic is embedded shallowly:

* pure derived data (`filteredProducts`, `sortedProducts`, `visibleProducts`)
  become pure Lean functions of their inputs;
* the `handleAddToCart` event handler becomes a function from the relevant
  state (`user`, `cartItems`, `cartCount`) and the clicked product to the
  new state together with the ordered list of side effects it performs
  (set-state calls, router redirect, network persist, toasts);
* JavaScript numbers arising from `Number(s.replace(/[^\d]/g, ""))` are
  modelled as natural numbers (every such value is a digit string read in
  base 10);
* `String.prototype.localeCompare` is an external, locale-dependent
  comparator; it is modelled as a parameter `cmp : String → String → Int`
  (the sign of `cmp x y` is what the sort consults), and `Array.prototype.sort`
  with a comparator is modelled as a stable sort placing `a` before `b`
  whenever `cmp a b ≤ 0`.
-/

/-- Image reference carried by a product (`defaultImage: { url: string }`). -/
structure DefaultImage where
  url : String
  deriving DecidableEq

/-- A catalog product as declared in `interface Product`.  Optional fields of
the TypeScript interface become `Option`s; in particular `justIn?: boolean`
is `none` when absent, so the strict comparisons `p.justIn === true` and
`p.justIn === false` both fail on an absent flag. -/
structure Product where
  _id : String
  name : String
  price : String
  desc : Option String := none
  colors : Option (List String) := none
  sizes : Option (List String) := none
  justIn : Option Bool := none
  defaultImage : DefaultImage
  deriving DecidableEq

/-- A cart entry as declared in `interface CartItem`. -/
structure CartItem where
  productId : String
  name : String
  price : Nat
  quantity : Nat
  deriving DecidableEq

/-- `Number(s.replace(/[^\d]/g, ""))`: drop every non-digit character and read
the remaining digit string as a decimal integer (`Number("")` is `0`).
`/\d/` matches exactly the ASCII digits, i.e. `Char.isDigit`. -/
def parsePrice (s : String) : Nat :=
  (s.data.filter Char.isDigit).foldl (fun acc c => acc * 10 + (c.toNat - 48)) 0

/-- Spec-side reading of the same rule: the integer formed by concatenating the
digit characters in order (most significant first, hence the `reverse` feeding
the little-endian `Nat.ofDigits`). -/
def digitsValue (s : String) : Nat :=
  Nat.ofDigits 10 (((s.data.filter Char.isDigit).map fun c => c.toNat - 48).reverse)

/-- The merge performed at the top of `handleAddToCart` (lines 184–206): if an
item with the clicked product's id is already in the cart, increment that
item's quantity, otherwise append a fresh item with quantity 1. -/
def updatedCartItems (cartItems : List CartItem) (product : Product) : List CartItem :=
  match cartItems.find? (fun item => item.productId == product._id) with
  | some _ =>
      cartItems.map fun item =>
        if item.productId == product._id then
          { item with quantity := item.quantity + 1 }
        else item
  | none =>
      cartItems ++
        [{ productId := product._id, name := product.name,
           price := parsePrice product.price, quantity := 1 }]

/-- Total quantity, as computed by the `reduce((acc, item) => acc + item.quantity, 0)`
calls. -/
def cartQuantityTotal (items : List CartItem) : Nat :=
  (items.map CartItem.quantity).sum

/-- The side effects `handleAddToCart` can perform, in the order it performs
them. -/
inductive Effect where
  | setCartItems (items : List CartItem)
  | setCartCount (count : Nat)
  | redirect (path : String)
  | persist (userId : String) (items : List CartItem)
  | toastSuccess (msg : String)
  | toastError (msg : String)
  deriving DecidableEq

/-- Result of one `handleAddToCart` invocation: the component state it leaves
behind and the ordered effect trace. -/
structure AddToCartResult where
  cartItems : List CartItem
  cartCount : Nat
  effects : List Effect
  deriving DecidableEq

/-- `handleAddToCart` (lines 182–254).  `user` is the Firebase user's uid when
signed in; `persistOk` tells whether the `POST /api/cart` round trip succeeds
(`res.ok`).  The merged collection is computed first; an unauthenticated
caller is then redirected with no state change; otherwise the local state is
set optimistically and the merged collection is persisted, with a success or
error toast depending on the outcome (no rollback on failure). -/
def handleAddToCart (user : Option String) (cartItems : List CartItem)
    (cartCount : Nat) (product : Product) (persistOk : Bool) : AddToCartResult :=
  let updated := updatedCartItems cartItems product
  match user with
  | none => { cartItems := cartItems, cartCount := cartCount,
              effects := [Effect.redirect "/signin"] }
  | some uid =>
      let newCartCount := cartQuantityTotal updated
      { cartItems := updated,
        cartCount := newCartCount,
        effects := [Effect.setCartItems updated,
                    Effect.setCartCount newCartCount,
                    Effect.persist uid updated,
                    if persistOk then Effect.toastSuccess "Item added to Cart"
                    else Effect.toastError "Error updating your cart. Please try again."] }

/-- Sum of the quantities of the cart items carrying a given product id
(observation used to state the single-item-per-product invariant). -/
def qtyOf (cart : List CartItem) (pid : String) : Nat :=
  ((cart.filter fun item => item.productId == pid).map CartItem.quantity).sum

/-- Number of cart items carrying a given product id. -/
def countOf (cart : List CartItem) (pid : String) : Nat :=
  (cart.filter fun item => item.productId == pid).length

/-- `filterJustIn === "" ? true : filterJustIn === "justIn" ? p.justIn === true
: p.justIn === false` (lines 126–130). -/
def matchesFilterJustIn (filterJustIn : String) (p : Product) : Bool :=
  if filterJustIn = "" then true
  else if filterJustIn = "justIn" then p.justIn == some true
  else p.justIn == some false

/-- `hay.includes(needle)`: `needle` occurs contiguously inside `hay`. -/
def strIncludes (hay needle : String) : Bool :=
  decide (needle.data <:+: hay.data)

/-- `filteredProducts` (lines 123–132): keep a product iff its lower-cased name
contains the lower-cased search term and it passes the just-in filter. -/
def filteredProducts (products : List Product) (searchTerm filterJustIn : String) :
    List Product :=
  products.filter fun p =>
    strIncludes p.name.toLower searchTerm.toLower && matchesFilterJustIn filterJustIn p

/-- `sortedProducts` (lines 134–154).  `cmp` models `localeCompare`; the
comparator-driven `Array.prototype.sort` is modelled as a stable sort that
puts `a` before `b` whenever the comparator value at `(a, b)` is `≤ 0`
(for the price modes the comparator is `priceA - priceB` resp.
`priceB - priceA`, whose sign orders the parsed prices). -/
def sortedProducts (cmp : String → String → Int) (filtered : List Product)
    (sortOption : String) : List Product :=
  if sortOption = "name-asc" then
    filtered.insertionSort fun a b => cmp a.name b.name ≤ 0
  else if sortOption = "name-desc" then
    filtered.insertionSort fun a b => cmp b.name a.name ≤ 0
  else if sortOption = "price-asc" then
    filtered.insertionSort fun a b => parsePrice a.price ≤ parsePrice b.price
  else if sortOption = "price-desc" then
    filtered.insertionSort fun a b => parsePrice b.price ≤ parsePrice a.price
  else filtered

/-- `useState(10)` (line 49) and the reset effect (lines 118–120) both use the
fixed window size 10. -/
def initialVisibleCount : Nat := 10

/-- `sortedProducts.slice(0, visibleCount)` (lines 157–159). -/
def visibleProducts (sorted : List Product) (visibleCount : Nat) : List Product :=
  sorted.take visibleCount

/-- The IntersectionObserver callback (lines 163–168): when the sentinel is
intersecting and the window is strictly below the result length, grow it by 10,
capped at the result length; otherwise leave it unchanged. -/
def onSentinelIntersect (isIntersecting : Bool) (visibleCount resultLen : Nat) : Nat :=
  if isIntersecting ∧ visibleCount < resultLen then
    min (visibleCount + 10) resultLen
  else visibleCount

/-- The view-local state feeding the pipeline. -/
structure ViewState where
  products : List Product
  searchTerm : String
  sortOption : String
  filterJustIn : String
  visibleCount : Nat
  deriving DecidableEq

/-- The effect at lines 118–120: whenever any of `searchTerm`, `sortOption`,
`filterJustIn`, `products` changes, `setVisibleCount(10)` runs. -/
def onDepsChanged (s : ViewState) : ViewState :=
  { s with visibleCount := initialVisibleCount }

/-- `setSearchTerm` followed by the reset effect it triggers. -/
def setSearchTerm (s : ViewState) (t : String) : ViewState :=
  onDepsChanged { s with searchTerm := t }

/-- `setSortOption` followed by the reset effect it triggers. -/
def setSortOption (s : ViewState) (t : String) : ViewState :=
  onDepsChanged { s with sortOption := t }

/-- `setFilterJustIn` followed by the reset effect it triggers. -/
def setFilterJustIn (s : ViewState) (t : String) : ViewState :=
  onDepsChanged { s with filterJustIn := t }

/-- `setProducts` followed by the reset effect it triggers. -/
def setProducts (s : ViewState) (ps : List Product) : ViewState :=
  onDepsChanged { s with products := ps }

/-- A concrete comparator satisfying the total-preorder laws assumed of
`localeCompare`, used to instantiate parametric theorems: compare strings by
length. -/
def demoCmp (x y : String) : Int :=
  (x.length : Int) - (y.length : Int)

/-- Concrete product used in witnesses. -/
def demoProductA : Product :=
  { _id := "p1", name := "Phulkari Dupatta", price := "Rs 1500",
    justIn := some true, defaultImage := { url := "/a.jpg" } }

/-- Second concrete product used in witnesses. -/
def demoProductB : Product :=
  { _id := "p2", name := "Phulkari Scarf", price := "Rs 800",
    justIn := some false, defaultImage := { url := "/b.jpg" } }

theorem foldl_digits (d : Char → Nat) :
    ∀ (l : List Char) (acc : Nat),
      l.foldl (fun a c => a * 10 + d c) acc
        = acc * 10 ^ l.length + Nat.ofDigits 10 ((l.map d).reverse) := by
  intro l
  induction l with
  | nil => intro acc; simp [Nat.ofDigits]
  | cons c t ih =>
      intro acc
      simp only [List.foldl_cons, List.map_cons, List.reverse_cons, List.length_cons]
      rw [ih, Nat.ofDigits_append, Nat.ofDigits_singleton]
      have hlen : ((t.map d).reverse).length = t.length := by simp
      rw [hlen]
      ring

/-- C7: for every price string, the parser used by the sort comparators and by
add-to-cart yields the integer formed by concatenating the string's digit
characters in order (a natural number, hence non-negative); in particular
"Rs 1,000" parses to 1000. -/
theorem parsePrice_concatenates_digits :
    (∀ s : String, parsePrice s = digitsValue s) ∧ parsePrice "Rs 1,000" = 1000 := by
  constructor
  · intro s
    unfold parsePrice digitsValue
    rw [foldl_digits]
    simp
  · decide

/-- C10: on a price string with no digit characters at all, the parser is total
and returns exactly 0. -/
theorem parsePrice_no_digits_zero (s : String) (h : ∀ c ∈ s.data, ¬ c.isDigit) :
    parsePrice s = 0 := by
  unfold parsePrice
  have hnil : s.data.filter Char.isDigit = [] :=
    List.filter_eq_nil_iff.mpr (by simpa using h)
  rw [hnil]
  rfl

theorem parsePrice_no_digits_zero_witness :
    (∀ c ∈ "Rs ".data, ¬ c.isDigit) ∧ parsePrice "Rs " = 0 :=
  ⟨by decide, parsePrice_no_digits_zero "Rs " (by decide)⟩

/-- C5 (amended): a sentinel-visibility event never pushes the window size above
`max` of its current value and the result length; if the window size is within
the result length it stays within it; and once the window size is at least the
result length (in particular, equal to it), the event causes no further
change.  (The unamended bound fails only at the fixed initial window size,
which may exceed the result length; see the counterexample.) -/
theorem sentinel_growth_capped (isIntersecting : Bool) (c len : Nat) :
    onSentinelIntersect isIntersecting c len ≤ max c len ∧
    (c ≤ len → onSentinelIntersect isIntersecting c len ≤ len) ∧
    (len ≤ c → onSentinelIntersect isIntersecting c len = c) := by
  unfold onSentinelIntersect
  split
  next h =>
    obtain ⟨hi, hlt⟩ := h
    exact ⟨le_max_of_le_right (min_le_right _ _), fun _ => min_le_right _ _,
      fun hlc => by omega⟩
  next h =>
    exact ⟨le_max_left _ _, fun hcl => hcl, fun _ => rfl⟩

theorem sentinel_growth_capped_witness :
    onSentinelIntersect true 10 13 ≤ max 10 13 ∧
    (10 ≤ 13 → onSentinelIntersect true 10 13 ≤ 13) ∧
    (13 ≤ 10 → onSentinelIntersect true 10 13 = 10) :=
  sentinel_growth_capped true 10 13

/-- C5 counterexample: with an empty catalog (and the initial view state) the
filtered/sorted result is empty while the window size is the fixed initial
value 10, so the window size exceeds the result length. -/
theorem visibleCount_can_exceed_result_length :
    (sortedProducts demoCmp (filteredProducts [] "" "") "name-asc").length
      < initialVisibleCount := by
  decide

/-- C6: changing the search term, sort mode, recent filter, or catalog resets
the visible-window size back to its fixed initial value, whatever it was. -/
theorem depsChange_resets_visibleCount (s : ViewState) (t : String) (ps : List Product) :
    (setSearchTerm s t).visibleCount = initialVisibleCount ∧
    (setSortOption s t).visibleCount = initialVisibleCount ∧
    (setFilterJustIn s t).visibleCount = initialVisibleCount ∧
    (setProducts s ps).visibleCount = initialVisibleCount :=
  ⟨rfl, rfl, rfl, rfl⟩

/-- C2: with no identity present, add-to-cart leaves the local cart items and
count unchanged, performs exactly one redirect to the sign-in page, and makes
no persist (network) call. -/
theorem addToCart_unauthenticated (cartItems : List CartItem) (cartCount : Nat)
    (product : Product) (persistOk : Bool) :
    (handleAddToCart none cartItems cartCount product persistOk).cartItems = cartItems ∧
    (handleAddToCart none cartItems cartCount product persistOk).cartCount = cartCount ∧
    (handleAddToCart none cartItems cartCount product persistOk).effects
      = [Effect.redirect "/signin"] ∧
    ∀ (uid : String) (items : List CartItem),
      Effect.persist uid items ∉
        (handleAddToCart none cartItems cartCount product persistOk).effects := by
  refine ⟨rfl, rfl, rfl, ?_⟩
  intro uid items hmem
  simp [handleAddToCart] at hmem

/-- C3: an authenticated add-to-cart sets the local items to the merged
collection and the count to the sum of its quantities, with the set-state
effects dispatched before the persist effect, whose body is exactly the merged
collection; in particular re-adding a product held with quantity 1 makes the
local cart hold it with quantity 2 and persists that exact snapshot. -/
theorem addToCart_optimistic_then_persist (uid : String) (cartItems : List CartItem)
    (cartCount : Nat) (product : Product) (persistOk : Bool) :
    (handleAddToCart (some uid) cartItems cartCount product persistOk).cartItems
      = updatedCartItems cartItems product ∧
    (handleAddToCart (some uid) cartItems cartCount product persistOk).cartCount
      = cartQuantityTotal (updatedCartItems cartItems product) ∧
    (handleAddToCart (some uid) cartItems cartCount product persistOk).effects
      = [Effect.setCartItems (updatedCartItems cartItems product),
         Effect.setCartCount (cartQuantityTotal (updatedCartItems cartItems product)),
         Effect.persist uid (updatedCartItems cartItems product),
         if persistOk then Effect.toastSuccess "Item added to Cart"
         else Effect.toastError "Error updating your cart. Please try again."] ∧
    ∀ (nm : String) (pr c : Nat),
      (handleAddToCart (some uid) [⟨product._id, nm, pr, 1⟩] c product persistOk).cartItems
        = [⟨product._id, nm, pr, 2⟩] ∧
      Effect.persist uid [⟨product._id, nm, pr, 2⟩]
        ∈ (handleAddToCart (some uid) [⟨product._id, nm, pr, 1⟩] c product persistOk).effects := by
  refine ⟨rfl, rfl, rfl, ?_⟩
  intro nm pr c
  constructor
  · simp [handleAddToCart, updatedCartItems, List.find?]
  · simp [handleAddToCart, updatedCartItems, List.find?, cartQuantityTotal]

/-- C4: when the persist call fails, the local state is exactly what the
optimistic update set (identical to the success case — no rollback) and a
transient error toast is among the effects. -/
theorem addToCart_persist_failure_no_rollback (uid : String) (cartItems : List CartItem)
    (cartCount : Nat) (product : Product) :
    (handleAddToCart (some uid) cartItems cartCount product false).cartItems
      = (handleAddToCart (some uid) cartItems cartCount product true).cartItems ∧
    (handleAddToCart (some uid) cartItems cartCount product false).cartCount
      = (handleAddToCart (some uid) cartItems cartCount product true).cartCount ∧
    (handleAddToCart (some uid) cartItems cartCount product false).cartItems
      = updatedCartItems cartItems product ∧
    (handleAddToCart (some uid) cartItems cartCount product false).cartCount
      = cartQuantityTotal (updatedCartItems cartItems product) ∧
    Effect.toastError "Error updating your cart. Please try again."
      ∈ (handleAddToCart (some uid) cartItems cartCount product false).effects := by
  refine ⟨rfl, rfl, rfl, rfl, ?_⟩
  simp [handleAddToCart]

theorem incr_map_productId (cart : List CartItem) (pid : String) :
    ((cart.map fun item =>
        if item.productId == pid then { item with quantity := item.quantity + 1 }
        else item).map CartItem.productId)
      = cart.map CartItem.productId := by
  induction cart with
  | nil => rfl
  | cons a t ih =>
      simp only [List.map_cons, ih, List.cons.injEq, and_true]
      by_cases hcase : a.productId == pid
      · simp [hcase]
      · simp [hcase]

theorem incr_preserves_productId (a : CartItem) (pid : String) :
    (if a.productId == pid then { a with quantity := a.quantity + 1 }
     else a).productId = a.productId := by
  by_cases h : a.productId == pid
  · simp [h]
  · simp [h]

theorem filter_map_incr (cart : List CartItem) (pid q : String) :
    ((cart.map fun item =>
        if item.productId == pid then { item with quantity := item.quantity + 1 }
        else item).filter fun item => item.productId == q)
      = (cart.filter fun item => item.productId == q).map fun item =>
          if item.productId == pid then { item with quantity := item.quantity + 1 }
          else item := by
  induction cart with
  | nil => rfl
  | cons a t ih =>
      simp only [List.map_cons, List.filter_cons, incr_preserves_productId]
      by_cases h : a.productId == q
      · simp only [h, if_true, List.map_cons, ih]
      · simp only [h, Bool.false_eq_true, if_false, ih]

theorem sum_map_quantity_succ (l : List CartItem) :
    (l.map fun item => item.quantity + 1).sum = (l.map CartItem.quantity).sum + l.length := by
  induction l with
  | nil => rfl
  | cons a t ih =>
      simp only [List.map_cons, List.sum_cons, List.length_cons, ih]
      omega

theorem qtyOf_incr_self (cart : List CartItem) (pid : String) :
    qtyOf (cart.map fun item =>
        if item.productId == pid then { item with quantity := item.quantity + 1 }
        else item) pid
      = qtyOf cart pid + countOf cart pid := by
  unfold qtyOf countOf
  rw [filter_map_incr]
  have hcong : ((cart.filter fun item => item.productId == pid).map fun item =>
        if item.productId == pid then { item with quantity := item.quantity + 1 }
        else item)
      = (cart.filter fun item => item.productId == pid).map fun item =>
          { item with quantity := item.quantity + 1 } := by
    apply List.map_congr_left
    intro i hi
    have hmem := List.of_mem_filter hi
    simp [hmem]
  rw [hcong, List.map_map]
  have : (CartItem.quantity ∘ fun item => { item with quantity := item.quantity + 1 })
      = fun item : CartItem => item.quantity + 1 := rfl
  rw [this, sum_map_quantity_succ]

theorem qtyOf_incr_other (cart : List CartItem) (pid q : String) (hne : q ≠ pid) :
    qtyOf (cart.map fun item =>
        if item.productId == pid then { item with quantity := item.quantity + 1 }
        else item) q
      = qtyOf cart q := by
  unfold qtyOf
  rw [filter_map_incr]
  have hid : ((cart.filter fun item => item.productId == q).map fun item =>
        if item.productId == pid then { item with quantity := item.quantity + 1 }
        else item)
      = cart.filter fun item => item.productId == q := by
    have := List.map_congr_left (l := cart.filter fun item => item.productId == q)
      (f := fun item : CartItem =>
        if item.productId == pid then { item with quantity := item.quantity + 1 }
        else item)
      (g := id) ?_
    · simpa using this
    · intro i hi
      have hmem := List.of_mem_filter hi
      have hiq : i.productId = q := by simpa using hmem
      have hnp : (i.productId == pid) = false := beq_eq_false_iff_ne.mpr (hiq ▸ hne)
      simp [hnp]
  rw [hid]

theorem countOf_eq_zero_of_not_mem (cart : List CartItem) (pid : String)
    (h : ∀ i ∈ cart, i.productId ≠ pid) : countOf cart pid = 0 := by
  unfold countOf
  rw [List.filter_eq_nil_iff.mpr (by simpa using h)]
  rfl

theorem countOf_le_one_of_nodup (cart : List CartItem) (pid : String)
    (h : (cart.map CartItem.productId).Nodup) : countOf cart pid ≤ 1 := by
  induction cart with
  | nil => exact Nat.zero_le 1
  | cons a t ih =>
      simp only [List.map_cons, List.nodup_cons] at h
      by_cases hcase : a.productId == pid
      · have hpid : a.productId = pid := by simpa using hcase
        have hzero : countOf t pid = 0 := by
          apply countOf_eq_zero_of_not_mem
          intro i hi hip
          exact h.1 (hpid ▸ hip ▸ List.mem_map_of_mem CartItem.productId hi)
        simp only [countOf, List.filter_cons, hcase, if_pos, List.length_cons]
        simpa [countOf] using hzero
      · simp only [countOf, List.filter_cons, hcase]
        exact ih h.2

theorem countOf_pos_of_mem (cart : List CartItem) (pid : String)
    (h : ∃ i ∈ cart, i.productId = pid) : 0 < countOf cart pid := by
  obtain ⟨i, hi, hip⟩ := h
  have : i ∈ cart.filter fun item => item.productId == pid :=
    List.mem_filter.mpr ⟨hi, by simpa using hip⟩
  unfold countOf
  exact List.length_pos.mpr (List.ne_nil_of_mem this)

/-- C1: on a cart with at most one item per product id, the add-to-cart merge
keeps ids duplicate-free; when the product is already present it produces no
new entry (same id sequence) and raises that product's quantity by exactly one,
leaving every other id's quantity unchanged; when absent it appends exactly one
new item with quantity one; and adding the same product twice to an empty cart
yields the single item with quantity 2. -/
theorem addToCart_single_item_per_product (cart : List CartItem) (p : Product)
    (h : (cart.map CartItem.productId).Nodup) :
    ((updatedCartItems cart p).map CartItem.productId).Nodup ∧
    ((∃ i ∈ cart, i.productId = p._id) →
        (updatedCartItems cart p).map CartItem.productId = cart.map CartItem.productId ∧
        qtyOf (updatedCartItems cart p) p._id = qtyOf cart p._id + 1 ∧
        ∀ pid, pid ≠ p._id → qtyOf (updatedCartItems cart p) pid = qtyOf cart pid) ∧
    ((¬ ∃ i ∈ cart, i.productId = p._id) →
        updatedCartItems cart p = cart ++ [⟨p._id, p.name, parsePrice p.price, 1⟩]) ∧
    updatedCartItems (updatedCartItems [] p) p
      = [⟨p._id, p.name, parsePrice p.price, 2⟩] := by
  have hiff : (∃ x, cart.find? (fun item => item.productId == p._id) = some x)
      ↔ ∃ i ∈ cart, i.productId = p._id := by
    rw [← Option.isSome_iff_exists, List.find?_isSome]
    simp
  have hpos : (∃ i ∈ cart, i.productId = p._id) →
      updatedCartItems cart p = cart.map fun item =>
        if item.productId == p._id then { item with quantity := item.quantity + 1 }
        else item := by
    intro hx
    obtain ⟨x, hxeq⟩ := hiff.mpr hx
    unfold updatedCartItems
    rw [hxeq]
  have hneg : (¬ ∃ i ∈ cart, i.productId = p._id) →
      updatedCartItems cart p = cart ++ [⟨p._id, p.name, parsePrice p.price, 1⟩] := by
    intro hx
    have hnone : cart.find? (fun item => item.productId == p._id) = none := by
      cases hfind : cart.find? (fun item => item.productId == p._id) with
      | none => rfl
      | some x => exact absurd (hiff.mp ⟨x, hfind⟩) hx
    unfold updatedCartItems
    rw [hnone]
  refine ⟨?_, fun hx => ?_, hneg, ?_⟩
  · by_cases hx : ∃ i ∈ cart, i.productId = p._id
    · rw [hpos hx, incr_map_productId]
      exact h
    · rw [hneg hx]
      simp only [List.map_append, List.map_cons, List.map_nil, List.nodup_append,
        List.nodup_singleton, true_and]
      refine ⟨h, ?_⟩
      intro a ha hb
      rcases List.mem_singleton.mp hb with rfl
      obtain ⟨i, hi, hip⟩ := List.mem_map.mp ha
      exact hx ⟨i, hi, hip⟩
  · have hone : countOf cart p._id = 1 := by
      have h1 := countOf_le_one_of_nodup cart p._id h
      have h2 := countOf_pos_of_mem cart p._id hx
      omega
    refine ⟨?_, ?_, ?_⟩
    · rw [hpos hx, incr_map_productId]
    · rw [hpos hx, qtyOf_incr_self, hone]
    · intro pid hpid
      rw [hpos hx, qtyOf_incr_other cart p._id pid hpid]
  · simp [updatedCartItems, List.find?]

theorem addToCart_single_item_per_product_witness :
    (([⟨"p1", "Phulkari Dupatta", 1500, 1⟩, ⟨"p2", "Phulkari Scarf", 800, 2⟩]
        : List CartItem).map CartItem.productId).Nodup ∧
    (((updatedCartItems [⟨"p1", "Phulkari Dupatta", 1500, 1⟩, ⟨"p2", "Phulkari Scarf", 800, 2⟩]
        demoProductA).map CartItem.productId).Nodup ∧
     ((∃ i ∈ ([⟨"p1", "Phulkari Dupatta", 1500, 1⟩, ⟨"p2", "Phulkari Scarf", 800, 2⟩]
          : List CartItem), i.productId = demoProductA._id) →
        (updatedCartItems [⟨"p1", "Phulkari Dupatta", 1500, 1⟩, ⟨"p2", "Phulkari Scarf", 800, 2⟩]
            demoProductA).map CartItem.productId
          = ([⟨"p1", "Phulkari Dupatta", 1500, 1⟩, ⟨"p2", "Phulkari Scarf", 800, 2⟩]
              : List CartItem).map CartItem.productId ∧
        qtyOf (updatedCartItems [⟨"p1", "Phulkari Dupatta", 1500, 1⟩, ⟨"p2", "Phulkari Scarf", 800, 2⟩]
            demoProductA) demoProductA._id
          = qtyOf [⟨"p1", "Phulkari Dupatta", 1500, 1⟩, ⟨"p2", "Phulkari Scarf", 800, 2⟩]
              demoProductA._id + 1 ∧
        ∀ pid, pid ≠ demoProductA._id →
          qtyOf (updatedCartItems [⟨"p1", "Phulkari Dupatta", 1500, 1⟩, ⟨"p2", "Phulkari Scarf", 800, 2⟩]
              demoProductA) pid
            = qtyOf [⟨"p1", "Phulkari Dupatta", 1500, 1⟩, ⟨"p2", "Phulkari Scarf", 800, 2⟩] pid) ∧
     ((¬ ∃ i ∈ ([⟨"p1", "Phulkari Dupatta", 1500, 1⟩, ⟨"p2", "Phulkari Scarf", 800, 2⟩]
          : List CartItem), i.productId = demoProductA._id) →
        updatedCartItems [⟨"p1", "Phulkari Dupatta", 1500, 1⟩, ⟨"p2", "Phulkari Scarf", 800, 2⟩]
            demoProductA
          = [⟨"p1", "Phulkari Dupatta", 1500, 1⟩, ⟨"p2", "Phulkari Scarf", 800, 2⟩]
              ++ [⟨demoProductA._id, demoProductA.name, parsePrice demoProductA.price, 1⟩]) ∧
     updatedCartItems (updatedCartItems [] demoProductA) demoProductA
       = [⟨demoProductA._id, demoProductA.name, parsePrice demoProductA.price, 2⟩]) :=
  ⟨by decide,
   addToCart_single_item_per_product
     [⟨"p1", "Phulkari Dupatta", 1500, 1⟩, ⟨"p2", "Phulkari Scarf", 800, 2⟩]
     demoProductA (by decide)⟩

/-- C8: a product is kept by the filter iff it is in the catalog, its
lower-cased name contains the lower-cased search term as a contiguous
substring, and it passes the recent-filter mode (all passes; "justIn" requires
the flag strictly true; "notJustIn" requires it strictly false); and the filter
is idempotent. -/
theorem filteredProducts_spec (products : List Product) (searchTerm filterJustIn : String) :
    (∀ p : Product,
        p ∈ filteredProducts products searchTerm filterJustIn ↔
          p ∈ products ∧ searchTerm.toLower.data <:+: p.name.toLower.data ∧
            matchesFilterJustIn filterJustIn p = true) ∧
    (∀ p : Product, matchesFilterJustIn "" p = true) ∧
    (∀ p : Product, matchesFilterJustIn "justIn" p = (p.justIn == some true)) ∧
    (∀ p : Product, matchesFilterJustIn "notJustIn" p = (p.justIn == some false)) ∧
    filteredProducts (filteredProducts products searchTerm filterJustIn) searchTerm filterJustIn
      = filteredProducts products searchTerm filterJustIn := by
  refine ⟨?_, fun p => rfl, fun p => rfl, fun p => rfl, ?_⟩
  · intro p
    simp [filteredProducts, List.mem_filter, strIncludes, and_assoc]
  · unfold filteredProducts
    rw [List.filter_filter]
    congr 1
    funext p
    exact Bool.and_self _

theorem perm_eq_of_pairwise_asymm {α : Type} {s : α → α → Prop}
    (hasym : ∀ a b, s a b → ¬ s b a) :
    ∀ {l₁ l₂ : List α}, l₁.Perm l₂ → l₁.Pairwise s → l₂.Pairwise s → l₁ = l₂ := by
  intro l₁
  induction l₁ with
  | nil =>
      intro l₂ hp _ _
      exact (hp.symm.eq_nil).symm
  | cons a t ih =>
      intro l₂ hp h1 h2
      cases l₂ with
      | nil => exact absurd hp.eq_nil (List.cons_ne_nil a t)
      | cons b t₂ =>
          by_cases hab : a = b
          · subst hab
            rw [ih hp.cons_inv h1.of_cons h2.of_cons]
          · exfalso
            have ha2 : a ∈ b :: t₂ := hp.mem_iff.mp (List.mem_cons_self a t)
            have hat2 : a ∈ t₂ := by
              rcases List.mem_cons.mp ha2 with heq | hm
              · exact absurd heq hab
              · exact hm
            have hsba : s b a := (List.pairwise_cons.mp h2).1 a hat2
            have hb1 : b ∈ a :: t := hp.symm.mem_iff.mp (List.mem_cons_self b t₂)
            have hbt : b ∈ t := by
              rcases List.mem_cons.mp hb1 with heq | hm
              · exact absurd heq.symm hab
              · exact hm
            have hsab : s a b := (List.pairwise_cons.mp h1).1 b hbt
            exact hasym a b hsab hsba

/-- C9: for a comparator behaving like a total preorder comparison (as
`localeCompare` does) and an input list in which no two products' names
compare equal, sorting by name-ascending and reversing gives exactly the
name-descending sort. -/
theorem nameAsc_reverse_eq_nameDesc (cmp : String → String → Int) (l : List Product)
    (hanti : ∀ x y, cmp x y ≤ 0 ↔ 0 ≤ cmp y x)
    (htrans : ∀ x y z, cmp x y ≤ 0 → cmp y z ≤ 0 → cmp x z ≤ 0)
    (hties : l.Pairwise fun a b => cmp a.name b.name ≠ 0) :
    (sortedProducts cmp l "name-asc").reverse = sortedProducts cmp l "name-desc" := by
  have hgoal :
      (l.insertionSort fun a b => cmp a.name b.name ≤ 0).reverse
        = l.insertionSort fun a b => cmp b.name a.name ≤ 0 := by
    haveI hTotA : IsTotal Product fun a b => cmp a.name b.name ≤ 0 := by
      constructor
      intro a b
      by_cases hc : cmp a.name b.name ≤ 0
      · exact Or.inl hc
      · exact Or.inr ((hanti b.name a.name).mpr (by omega))
    haveI hTrA : IsTrans Product fun a b => cmp a.name b.name ≤ 0 :=
      ⟨fun a b c hab hbc => htrans a.name b.name c.name hab hbc⟩
    haveI hTotD : IsTotal Product fun a b => cmp b.name a.name ≤ 0 := by
      constructor
      intro a b
      by_cases hc : cmp b.name a.name ≤ 0
      · exact Or.inl hc
      · exact Or.inr ((hanti a.name b.name).mpr (by omega))
    haveI hTrD : IsTrans Product fun a b => cmp b.name a.name ≤ 0 :=
      ⟨fun a b c hab hbc => htrans c.name b.name a.name hbc hab⟩
    have hsymm : ∀ {x y : Product}, cmp x.name y.name ≠ 0 → cmp y.name x.name ≠ 0 := by
      intro x y hxy hyx0
      apply hxy
      have h1 : 0 ≤ cmp x.name y.name := (hanti y.name x.name).mp (le_of_eq hyx0)
      have h2 : cmp x.name y.name ≤ 0 := (hanti x.name y.name).mpr (le_of_eq hyx0.symm)
      omega
    have pA := List.perm_insertionSort (fun a b => cmp a.name b.name ≤ 0) l
    have pB := List.perm_insertionSort (fun a b => cmp b.name a.name ≤ 0) l
    have hA := List.sorted_insertionSort (fun a b => cmp a.name b.name ≤ 0) l
    have hB := List.sorted_insertionSort (fun a b => cmp b.name a.name ≤ 0) l
    have hTA : (l.insertionSort fun a b => cmp a.name b.name ≤ 0).Pairwise
        (fun a b => cmp a.name b.name ≠ 0) :=
      (List.Perm.pairwise_iff (fun hxy => hsymm hxy) pA).mpr hties
    have hTB : (l.insertionSort fun a b => cmp b.name a.name ≤ 0).Pairwise
        (fun a b => cmp a.name b.name ≠ 0) :=
      (List.Perm.pairwise_iff (fun hxy => hsymm hxy) pB).mpr hties
    have hStrictA : (l.insertionSort fun a b => cmp a.name b.name ≤ 0).Pairwise
        (fun a b => cmp a.name b.name ≤ 0 ∧ cmp a.name b.name ≠ 0) :=
      hA.and hTA
    have hStrictRevA : (l.insertionSort fun a b => cmp a.name b.name ≤ 0).reverse.Pairwise
        (fun a b => cmp b.name a.name ≤ 0 ∧ cmp b.name a.name ≠ 0) :=
      List.pairwise_reverse.mpr hStrictA
    have hStrictB : (l.insertionSort fun a b => cmp b.name a.name ≤ 0).Pairwise
        (fun a b => cmp b.name a.name ≤ 0 ∧ cmp b.name a.name ≠ 0) :=
      hB.and (hTB.imp fun hxy => hsymm hxy)
    have hasymS : ∀ a b : Product,
        (cmp b.name a.name ≤ 0 ∧ cmp b.name a.name ≠ 0) →
        ¬ (cmp a.name b.name ≤ 0 ∧ cmp a.name b.name ≠ 0) := by
      rintro a b ⟨h1, h2⟩ ⟨h3, h4⟩
      have h5 : 0 ≤ cmp b.name a.name := (hanti a.name b.name).mp h3
      exact h2 (by omega)
    have hperm : (l.insertionSort fun a b => cmp a.name b.name ≤ 0).reverse.Perm
        (l.insertionSort fun a b => cmp b.name a.name ≤ 0) :=
      ((List.reverse_perm _).trans pA).trans pB.symm
    exact perm_eq_of_pairwise_asymm hasymS hperm hStrictRevA hStrictB
  unfold sortedProducts
  simpa using hgoal

theorem nameAsc_reverse_eq_nameDesc_witness :
    (∀ x y, demoCmp x y ≤ 0 ↔ 0 ≤ demoCmp y x) ∧
    (∀ x y z, demoCmp x y ≤ 0 → demoCmp y z ≤ 0 → demoCmp x z ≤ 0) ∧
    (([demoProductA, demoProductB] : List Product).Pairwise
      fun a b => demoCmp a.name b.name ≠ 0) ∧
    (sortedProducts demoCmp [demoProductA, demoProductB] "name-asc").reverse
      = sortedProducts demoCmp [demoProductA, demoProductB] "name-desc" :=
  ⟨fun x y => by unfold demoCmp; omega,
   fun x y z => by unfold demoCmp; omega,
   by decide,
   nameAsc_reverse_eq_nameDesc demoCmp [demoProductA, demoProductB]
     (fun x y => by unfold demoCmp; omega)
     (fun x y z => by unfold demoCmp; omega)
     (by decide)⟩
